import Mathlib

/-!
Verification of the fantasy-soccer data layer of this repository:
the fantasy-points scoring function, the fantasy squad manager
(budget, squad size, captaincy), the season lifecycle pre-save
transition, match score/result derivation, and team soft-delete
query visibility.  All definitions are shallow embeddings of the
TypeScript sources; money and point amounts are rationals (the source
uses JS numbers with halves as the only fractional weight, exact in ℚ),
dates are integers, and document ids are naturals.
-/

namespace Touchline

/-! ### Scoring constants (src/lib/types/Schema.ts, FANTASY_POINTS) -/

inductive Position where
  | goalkeeper
  | defender
  | midfielder
  | forward
deriving DecidableEq, Repr

def FANTASY_POINTS_APPEARANCE : ℚ := 1

def FANTASY_POINTS_GOAL_GOALKEEPER : ℚ := 6

def FANTASY_POINTS_GOAL_DEFENDER : ℚ := 6

def FANTASY_POINTS_GOAL_MIDFIELDER : ℚ := 5

def FANTASY_POINTS_GOAL_FORWARD : ℚ := 4

def FANTASY_POINTS_goalFor : Position → ℚ
  | .goalkeeper => FANTASY_POINTS_GOAL_GOALKEEPER
  | .defender => FANTASY_POINTS_GOAL_DEFENDER
  | .midfielder => FANTASY_POINTS_GOAL_MIDFIELDER
  | .forward => FANTASY_POINTS_GOAL_FORWARD

/-! ### PlayerStats performance and fantasy sub-documents (part_002) -/

structure PerformanceStats where
  appearances : ℕ
  starts : ℕ
  minutesPlayed : ℕ
  goals : ℕ
  assists : ℕ
  yellowCards : ℕ
  redCards : ℕ
  cleanSheets : ℕ
  saves : ℕ
  penaltiesSaved : ℕ
  penaltiesMissed : ℕ
  ownGoals : ℕ
deriving DecidableEq, Repr

structure FantasyStats where
  fantasyPoints : ℚ
  averagePoints : ℚ
  pointsPerMinute : ℚ
deriving DecidableEq, Repr

/-- The running point sum accumulated by updateFantasyPoints
(part_002, lines 431-451) before the clamp at zero. -/
def computeRawPoints (performance : PerformanceStats) : ℚ :=
  (performance.appearances : ℚ) * 1
    + (performance.goals : ℚ) * 4
    + (performance.assists : ℚ) * 3
    + (performance.cleanSheets : ℚ) * 4
    + (performance.saves : ℚ) * 0.5
    + (performance.penaltiesSaved : ℚ) * 5
    - (performance.penaltiesMissed : ℚ) * 2
    - (performance.yellowCards : ℚ) * 1
    - (performance.redCards : ℚ) * 3
    - (performance.ownGoals : ℚ) * 2
    + (if performance.minutesPlayed ≥ 60 then (2 : ℚ)
       else if performance.minutesPlayed ≥ 1 then (1 : ℚ) else 0)

/-- PlayerStatsSchema.methods.updateFantasyPoints (part_002, lines 431-457):
clamps the raw sum at zero and derives averagePoints and pointsPerMinute. -/
def updateFantasyPoints (performance : PerformanceStats) : FantasyStats :=
  let fantasyPoints := max 0 (computeRawPoints performance)
  { fantasyPoints := fantasyPoints
    averagePoints :=
      if performance.appearances > 0 then fantasyPoints / (performance.appearances : ℚ) else 0
    pointsPerMinute :=
      if performance.minutesPlayed > 0 then fantasyPoints / (performance.minutesPlayed : ℚ) else 0 }

/-- The scoring formula exactly as the specification states it (spec §4.3). -/
def computePointsSpec (p : PerformanceStats) : ℚ :=
  max 0 ((p.appearances : ℚ) * 1 + (p.goals : ℚ) * 4 + (p.assists : ℚ) * 3
    + (p.cleanSheets : ℚ) * 4 + (p.saves : ℚ) * 0.5 + (p.penaltiesSaved : ℚ) * 5
    - (p.penaltiesMissed : ℚ) * 2 - (p.yellowCards : ℚ) * 1 - (p.redCards : ℚ) * 3
    - (p.ownGoals : ℚ) * 2
    + (if p.minutesPlayed ≥ 60 then (2 : ℚ) else if p.minutesPlayed ≥ 1 then (1 : ℚ) else 0))

/-- Claim C1: for every performance snapshot the fantasy points computation
returns the clamped spec formula, is never negative, is deterministic, derives
averagePoints and pointsPerMinute as the spec states, and the marginal value of
a goal is the flat 4 for every snapshot (independent of position), which is not
the position-weighted FANTASY_POINTS goal table (goalkeeper and midfielder
weights differ from 4). -/
theorem updateFantasyPoints_spec (p : PerformanceStats) :
    (updateFantasyPoints p).fantasyPoints = computePointsSpec p
    ∧ 0 ≤ (updateFantasyPoints p).fantasyPoints
    ∧ updateFantasyPoints p = updateFantasyPoints p
    ∧ (updateFantasyPoints p).averagePoints =
        (if 0 < p.appearances
          then (updateFantasyPoints p).fantasyPoints / (p.appearances : ℚ) else 0)
    ∧ (updateFantasyPoints p).pointsPerMinute =
        (if 0 < p.minutesPlayed
          then (updateFantasyPoints p).fantasyPoints / (p.minutesPlayed : ℚ) else 0)
    ∧ computeRawPoints { p with goals := p.goals + 1 } = computeRawPoints p + 4
    ∧ FANTASY_POINTS_goalFor Position.goalkeeper ≠ 4
    ∧ FANTASY_POINTS_goalFor Position.midfielder ≠ 4 := by
  refine ⟨rfl, le_max_left _ _, rfl, rfl, rfl, ?_, by decide, by decide⟩
  simp only [computeRawPoints]
  push_cast
  ring

/-! ### FantasyTeam (src/lib/schema/FantasyTeam.ts) -/

inductive FantasyTeamStatus where
  | active
  | completed
  | abandoned
deriving DecidableEq, Repr

structure PlayerSelection where
  playerId : ℕ
  purchasePrice : ℚ
  currentValue : Option ℚ
  isCaptain : Bool
  isViceCaptain : Bool
  isStarting : Bool
  addedAt : ℕ
deriving DecidableEq, Repr

structure FantasyTeam where
  name : String
  userId : ℕ
  seasonId : ℕ
  players : List PlayerSelection
  budget : ℚ
  remainingBudget : ℚ
  totalValue : ℚ
  totalPoints : ℕ
  gameweekPoints : ℕ
  rank : ℕ
  freeTransfers : ℕ
  usedTransfers : ℕ
  transferCost : ℚ
  status : FantasyTeamStatus
  isPublic : Bool
deriving DecidableEq, Repr

/-- The three business-rule errors thrown by addPlayer plus the one thrown by
removePlayer, with the thrown message strings. -/
inductive SquadError where
  | squadFull
  | insufficientBudget
  | duplicatePlayer
  | playerNotFound
deriving DecidableEq, Repr

def SquadError.message : SquadError → String
  | .squadFull => "Squad is full. Cannot add more players."
  | .insufficientBudget => "Insufficient budget to add this player."
  | .duplicatePlayer => "Player is already in the squad."
  | .playerNotFound => "Player not found in squad."

def hasPlayer (team : FantasyTeam) (playerId : ℕ) : Bool :=
  team.players.any (fun p => p.playerId == playerId)

/-- The selection object pushed by addPlayer: captain flags start false,
addedAt is the push time, currentValue is left unset. -/
def mkSelection (playerId : ℕ) (price : ℚ) (isStarting : Bool) (now : ℕ) : PlayerSelection :=
  { playerId := playerId, purchasePrice := price, currentValue := none,
    isCaptain := false, isViceCaptain := false, isStarting := isStarting, addedAt := now }

/-- FantasyTeamSchema.methods.addPlayer (FantasyTeam.ts, lines 286-313). -/
def addPlayer (team : FantasyTeam) (playerId : ℕ) (price : ℚ) (isStarting : Bool)
    (now : ℕ) : Except SquadError FantasyTeam :=
  if 15 ≤ team.players.length then
    Except.error SquadError.squadFull
  else if team.remainingBudget < price then
    Except.error SquadError.insufficientBudget
  else if hasPlayer team playerId then
    Except.error SquadError.duplicatePlayer
  else
    Except.ok { team with
      players := team.players ++ [mkSelection playerId price isStarting now],
      remainingBudget := team.remainingBudget - price,
      totalValue := team.totalValue + price }

/-- FantasyTeamSchema.methods.removePlayer (FantasyTeam.ts, lines 315-328):
findIndex of the first selection for the player, refund its purchase price,
splice it out. -/
def removePlayer (team : FantasyTeam) (playerId : ℕ) : Except SquadError FantasyTeam :=
  match team.players.find? (fun p => p.playerId == playerId) with
  | none => Except.error SquadError.playerNotFound
  | some player =>
    Except.ok { team with
      players := team.players.eraseP (fun p => p.playerId == playerId),
      remainingBudget := team.remainingBudget + player.purchasePrice,
      totalValue := team.totalValue - player.purchasePrice }

/-- FantasyTeamSchema.methods.setCaptain (FantasyTeam.ts, lines 330-337). -/
def setCaptain (team : FantasyTeam) (playerId : ℕ) : FantasyTeam :=
  { team with players := team.players.map (fun p =>
      let c := p.playerId == playerId
      { p with isCaptain := c, isViceCaptain := if c then false else p.isViceCaptain }) }

/-- FantasyTeamSchema.methods.setViceCaptain (FantasyTeam.ts, lines 339-346). -/
def setViceCaptain (team : FantasyTeam) (playerId : ℕ) : FantasyTeam :=
  { team with players := team.players.map (fun p =>
      let v := p.playerId == playerId
      { p with isViceCaptain := v, isCaptain := if v then false else p.isCaptain }) }

/-- One call against the squad-mutation surface.  A failing addPlayer or
removePlayer throws before mutating, so the document is left as it was. -/
inductive SquadOp where
  | add (playerId : ℕ) (price : ℚ) (isStarting : Bool) (now : ℕ)
  | remove (playerId : ℕ)
  | captain (playerId : ℕ)
  | viceCaptain (playerId : ℕ)
deriving DecidableEq, Repr

def applyOp (team : FantasyTeam) : SquadOp → FantasyTeam
  | .add playerId price isStarting now =>
    match addPlayer team playerId price isStarting now with
    | .ok t => t
    | .error _ => team
  | .remove playerId =>
    match removePlayer team playerId with
    | .ok t => t
    | .error _ => team
  | .captain playerId => setCaptain team playerId
  | .viceCaptain playerId => setViceCaptain team playerId

def applyOps (team : FantasyTeam) (ops : List SquadOp) : FantasyTeam :=
  ops.foldl applyOp team

def budgetInvariant (team : FantasyTeam) : Prop :=
  team.remainingBudget + team.totalValue = team.budget

lemma addPlayer_ok_fields {team : FantasyTeam} {playerId : ℕ} {price : ℚ}
    {isStarting : Bool} {now : ℕ} {t : FantasyTeam}
    (h : addPlayer team playerId price isStarting now = .ok t) :
    team.players.length < 15
      ∧ price ≤ team.remainingBudget
      ∧ hasPlayer team playerId = false
      ∧ t.remainingBudget = team.remainingBudget - price
      ∧ t.totalValue = team.totalValue + price
      ∧ t.budget = team.budget
      ∧ t.players = team.players ++ [mkSelection playerId price isStarting now] := by
  unfold addPlayer at h
  split at h
  next => exact absurd h (by simp)
  next h1 =>
    split at h
    next => exact absurd h (by simp)
    next h2 =>
      split at h
      next => exact absurd h (by simp)
      next h3 =>
        cases h
        exact ⟨by omega, le_of_not_lt h2, by simpa using h3, rfl, rfl, rfl, rfl⟩

lemma removePlayer_ok_fields {team : FantasyTeam} {playerId : ℕ} {t : FantasyTeam}
    (h : removePlayer team playerId = .ok t) :
    ∃ player, team.players.find? (fun p => p.playerId == playerId) = some player
      ∧ t.remainingBudget = team.remainingBudget + player.purchasePrice
      ∧ t.totalValue = team.totalValue - player.purchasePrice
      ∧ t.budget = team.budget
      ∧ t.players = team.players.eraseP (fun p => p.playerId == playerId) := by
  unfold removePlayer at h
  split at h
  · exact absurd h (by simp)
  · cases h
    exact ⟨_, by assumption, rfl, rfl, rfl, rfl⟩

lemma budgetInvariant_applyOp {team : FantasyTeam} (op : SquadOp)
    (h : budgetInvariant team) : budgetInvariant (applyOp team op) := by
  unfold budgetInvariant at h ⊢
  cases op with
  | add playerId price isStarting now =>
    simp only [applyOp]
    split
    next t ht =>
      obtain ⟨-, -, -, hrb, htv, hb, -⟩ := addPlayer_ok_fields ht
      rw [hrb, htv, hb, ← h]
      ring
    next => exact h
  | remove playerId =>
    simp only [applyOp]
    split
    next t ht =>
      obtain ⟨player, _, hrb, htv, hb, _⟩ := removePlayer_ok_fields ht
      rw [hrb, htv, hb, ← h]
      ring
    next => exact h
  | captain playerId => exact h
  | viceCaptain playerId => exact h

/-- Claim C2: if a FantasyTeam initially satisfies
remainingBudget + totalValue = budget, then after any sequence of squad
operations (in particular any sequence of addPlayer and removePlayer calls,
each either succeeding or failing) the equation still holds; it holds after
every call because every prefix of a sequence is itself a sequence. -/
theorem budget_invariant_preserved (team : FantasyTeam) (ops : List SquadOp)
    (h : budgetInvariant team) : budgetInvariant (applyOps team ops) := by
  induction ops generalizing team with
  | nil => exact h
  | cons op rest ih => exact ih _ (budgetInvariant_applyOp op h)

def demoTeam : FantasyTeam :=
  { name := "Demo FC", userId := 1, seasonId := 1, players := [],
    budget := 100, remainingBudget := 100, totalValue := 0,
    totalPoints := 0, gameweekPoints := 0, rank := 0, freeTransfers := 1,
    usedTransfers := 0, transferCost := 0, status := .active, isPublic := false }

/-- Witness for C2 at a concrete team and operation sequence. -/
theorem budget_invariant_preserved_witness :
    budgetInvariant demoTeam
      ∧ budgetInvariant (applyOps demoTeam
          [.add 1 10 true 0, .add 2 95 true 0, .add 1 5 false 1, .remove 1, .captain 2]) :=
  ⟨by norm_num [budgetInvariant, demoTeam],
    budget_invariant_preserved demoTeam _ (by norm_num [budgetInvariant, demoTeam])⟩

lemma length_applyOp_le {team : FantasyTeam} (op : SquadOp)
    (h : team.players.length ≤ 15) : (applyOp team op).players.length ≤ 15 := by
  cases op with
  | add playerId price isStarting now =>
    simp only [applyOp]
    split
    next t ht =>
      obtain ⟨hlen, -, -, -, -, -, hps⟩ := addPlayer_ok_fields ht
      rw [hps]
      simp only [List.length_append, List.length_singleton]
      omega
    next => exact h
  | remove playerId =>
    simp only [applyOp]
    split
    next t ht =>
      obtain ⟨player, -, -, -, -, hps⟩ := removePlayer_ok_fields ht
      rw [hps]
      exact le_trans (List.eraseP_sublist _).length_le h
    next => exact h
  | captain playerId => simpa [applyOp, setCaptain] using h
  | viceCaptain playerId => simpa [applyOp, setViceCaptain] using h

/-- Claim C3: starting from any squad of at most 15 selections, no sequence of
squad operations (in particular no sequence of addPlayer calls) brings the
selection count above 15; and when the squad holds exactly 15 selections,
addPlayer fails with the squad-full error and the squad still holds exactly
15 selections afterwards. -/
theorem squad_size_bound (team : FantasyTeam) (ops : List SquadOp)
    (h : team.players.length ≤ 15) :
    (applyOps team ops).players.length ≤ 15
    ∧ ∀ playerId price isStarting now, team.players.length = 15 →
        addPlayer team playerId price isStarting now = .error .squadFull
        ∧ (applyOp team (.add playerId price isStarting now)).players.length = 15 := by
  constructor
  · induction ops generalizing team with
    | nil => exact h
    | cons op rest ih => exact ih _ (length_applyOp_le op h)
  · intro playerId price isStarting now h15
    have herr : addPlayer team playerId price isStarting now = .error .squadFull := by
      unfold addPlayer
      rw [if_pos (by omega)]
    refine ⟨herr, ?_⟩
    simp only [applyOp, herr, h15]

def fullTeam : FantasyTeam :=
  { demoTeam with players := (List.range 15).map (fun i => mkSelection i 1 true 0) }

/-- Witness for C3 at a concrete 15-player squad. -/
theorem squad_size_bound_witness :
    fullTeam.players.length ≤ 15
    ∧ fullTeam.players.length = 15
    ∧ addPlayer fullTeam 99 1 true 0 = .error .squadFull
    ∧ (applyOp fullTeam (.add 99 1 true 0)).players.length = 15 :=
  ⟨by simp [fullTeam, demoTeam],
    by simp [fullTeam, demoTeam],
    ((squad_size_bound fullTeam [] (by simp [fullTeam, demoTeam])).2
      99 1 true 0 (by simp [fullTeam, demoTeam])).1,
    ((squad_size_bound fullTeam [] (by simp [fullTeam, demoTeam])).2
      99 1 true 0 (by simp [fullTeam, demoTeam])).2⟩

/-- Claim C4: addPlayer fails with the squad-full error when the squad holds
15 selections; with the insufficient-budget error when (below 15) the price
exceeds the remaining budget; with the duplicate-player error when (below 15,
affordable) the player is already among the selections; otherwise it succeeds,
appending exactly one new selection for the player, decrementing
remainingBudget by the price and incrementing totalValue by it.  Every failing
call leaves the team state unchanged. -/
theorem addPlayer_cases (team : FantasyTeam) (playerId : ℕ) (price : ℚ)
    (isStarting : Bool) (now : ℕ) (hprice : 0 ≤ price) :
    (team.players.length = 15 →
        addPlayer team playerId price isStarting now = .error .squadFull)
    ∧ (team.players.length < 15 → team.remainingBudget < price →
        addPlayer team playerId price isStarting now = .error .insufficientBudget)
    ∧ (team.players.length < 15 → price ≤ team.remainingBudget →
        (∃ sel ∈ team.players, sel.playerId = playerId) →
        addPlayer team playerId price isStarting now = .error .duplicatePlayer)
    ∧ (team.players.length < 15 → price ≤ team.remainingBudget →
        (¬ ∃ sel ∈ team.players, sel.playerId = playerId) →
        ∃ t, addPlayer team playerId price isStarting now = .ok t
          ∧ (∃ sel, t.players = team.players ++ [sel] ∧ sel.playerId = playerId)
          ∧ t.remainingBudget = team.remainingBudget - price
          ∧ t.totalValue = team.totalValue + price)
    ∧ (∀ e, addPlayer team playerId price isStarting now = .error e →
        applyOp team (.add playerId price isStarting now) = team) := by
  have hdup_iff : (hasPlayer team playerId = true)
      ↔ ∃ sel ∈ team.players, sel.playerId = playerId := by
    simp [hasPlayer, List.any_eq_true]
  refine ⟨?_, ?_, ?_, ?_, ?_⟩
  · intro h15
    unfold addPlayer
    rw [if_pos (by omega)]
  · intro hlen hbud
    unfold addPlayer
    rw [if_neg (by omega), if_pos hbud]
  · intro hlen hbud hdup
    unfold addPlayer
    rw [if_neg (by omega), if_neg (not_lt.mpr hbud), if_pos (hdup_iff.mpr hdup)]
  · intro hlen hbud hdup
    have hok : addPlayer team playerId price isStarting now = .ok { team with
        players := team.players ++ [mkSelection playerId price isStarting now],
        remainingBudget := team.remainingBudget - price,
        totalValue := team.totalValue + price } := by
      unfold addPlayer
      rw [if_neg (by omega), if_neg (not_lt.mpr hbud),
        if_neg (fun hc => hdup (hdup_iff.mp hc))]
    exact ⟨_, hok, ⟨mkSelection playerId price isStarting now, rfl, rfl⟩, rfl, rfl⟩
  · intro e he
    simp only [applyOp, he]

/-- Witness for C4 at a concrete team, exercising the success case. -/
theorem addPlayer_cases_witness :
    (0 : ℚ) ≤ 10
    ∧ (∃ t, addPlayer demoTeam 7 10 true 0 = .ok t
        ∧ (∃ sel, t.players = demoTeam.players ++ [sel] ∧ sel.playerId = 7)
        ∧ t.remainingBudget = demoTeam.remainingBudget - 10
        ∧ t.totalValue = demoTeam.totalValue + 10) :=
  ⟨by norm_num,
    (addPlayer_cases demoTeam 7 10 true 0 (by norm_num)).2.2.2.1
      (by simp [demoTeam]) (by norm_num [demoTeam]) (by simp [demoTeam])⟩

def squadIds (team : FantasyTeam) : List ℕ :=
  team.players.map (fun p => p.playerId)

def capCount (team : FantasyTeam) : ℕ :=
  (team.players.filter (fun p => p.isCaptain)).length

def viceCount (team : FantasyTeam) : ℕ :=
  (team.players.filter (fun p => p.isViceCaptain)).length

lemma capCount_setCaptain (team : FantasyTeam) (playerId : ℕ) :
    capCount (setCaptain team playerId) = (squadIds team).count playerId := by
  simp only [capCount, setCaptain, squadIds, List.count_eq_countP, List.countP_map,
    ← List.countP_eq_length_filter]
  rfl

lemma viceCount_setViceCaptain (team : FantasyTeam) (playerId : ℕ) :
    viceCount (setViceCaptain team playerId) = (squadIds team).count playerId := by
  simp only [viceCount, setViceCaptain, squadIds, List.count_eq_countP, List.countP_map,
    ← List.countP_eq_length_filter]
  rfl

/-- Every selection of setCaptain(p) has isCaptain true exactly when it is the
selection for p, and a captain selection has isViceCaptain false. -/
lemma setCaptain_flags (team : FantasyTeam) (playerId : ℕ) :
    ∀ sel ∈ (setCaptain team playerId).players,
      (sel.isCaptain = true ↔ sel.playerId = playerId)
      ∧ (sel.isCaptain = true → sel.isViceCaptain = false) := by
  intro sel hmem
  simp only [setCaptain, List.mem_map] at hmem
  obtain ⟨p, -, rfl⟩ := hmem
  by_cases hc : p.playerId = playerId
  · simp [hc]
  · simp [hc]

lemma setViceCaptain_flags (team : FantasyTeam) (playerId : ℕ) :
    ∀ sel ∈ (setViceCaptain team playerId).players,
      (sel.isViceCaptain = true ↔ sel.playerId = playerId)
      ∧ (sel.isViceCaptain = true → sel.isCaptain = false) := by
  intro sel hmem
  simp only [setViceCaptain, List.mem_map] at hmem
  obtain ⟨p, -, rfl⟩ := hmem
  by_cases hc : p.playerId = playerId
  · simp [hc]
  · simp [hc]

def soloTeam : FantasyTeam :=
  { demoTeam with players := [{ mkSelection 1 5 true 0 with isCaptain := true }] }

/-- Claim C5 counterexample: on a one-player squad whose only selection is for
player 1, setCaptain(2) leaves ZERO selections with isCaptain=true (the code
clears the flag on every selection and never checks that the named player is
in the squad), while the claim demands exactly one. -/
theorem setCaptain_absent_counterexample :
    soloTeam.players.length = 1 ∧ capCount (setCaptain soloTeam 2) = 0 := by
  constructor
  · rfl
  · decide

/-- Claim C5 (amended): for a squad whose selection playerIds are distinct,
after setCaptain(p): every selection has isCaptain=true exactly when it is the
selection for p, and the captain selection has isViceCaptain=false; when p is
in the squad exactly one selection is captain, but when p is absent no
selection is captain at all. -/
theorem setCaptain_exclusivity_amended (team : FantasyTeam) (playerId : ℕ)
    (hnd : (squadIds team).Nodup) :
    ((∃ sel ∈ team.players, sel.playerId = playerId) →
        capCount (setCaptain team playerId) = 1)
    ∧ (∀ sel ∈ (setCaptain team playerId).players,
        (sel.isCaptain = true ↔ sel.playerId = playerId)
        ∧ (sel.isCaptain = true → sel.isViceCaptain = false))
    ∧ ((¬ ∃ sel ∈ team.players, sel.playerId = playerId) →
        capCount (setCaptain team playerId) = 0) := by
  refine ⟨?_, setCaptain_flags team playerId, ?_⟩
  · intro hmem
    rw [capCount_setCaptain]
    refine List.count_eq_one_of_mem hnd ?_
    obtain ⟨sel, hsel, rfl⟩ := hmem
    exact List.mem_map.mpr ⟨sel, hsel, rfl⟩
  · intro habs
    rw [capCount_setCaptain, List.count_eq_zero]
    intro hc
    obtain ⟨sel, hsel, hid⟩ := List.mem_map.mp hc
    exact habs ⟨sel, hsel, hid⟩

/-- Witness for C5 (amended) at a concrete two-player squad. -/
theorem setCaptain_exclusivity_amended_witness :
    (squadIds { demoTeam with
        players := [mkSelection 1 5 true 0, mkSelection 2 6 true 0] }).Nodup
    ∧ capCount (setCaptain { demoTeam with
        players := [mkSelection 1 5 true 0, mkSelection 2 6 true 0] } 2) = 1 :=
  ⟨by decide,
    (setCaptain_exclusivity_amended { demoTeam with
        players := [mkSelection 1 5 true 0, mkSelection 2 6 true 0] } 2 (by decide)).1
      ⟨mkSelection 2 6 true 0, by decide, rfl⟩⟩

/-- At most one captain, at most one vice-captain, and no selection carries
both flags. -/
def captaincyInvariant (team : FantasyTeam) : Prop :=
  capCount team ≤ 1 ∧ viceCount team ≤ 1
    ∧ ∀ sel ∈ team.players, ¬(sel.isCaptain = true ∧ sel.isViceCaptain = true)

/-- The inductive invariant: distinct playerIds plus the captaincy bounds. -/
def reachInvariant (team : FantasyTeam) : Prop :=
  (squadIds team).Nodup ∧ captaincyInvariant team

lemma squadIds_setCaptain (team : FantasyTeam) (playerId : ℕ) :
    squadIds (setCaptain team playerId) = squadIds team := by
  simp only [squadIds, setCaptain, List.map_map]
  rfl

lemma squadIds_setViceCaptain (team : FantasyTeam) (playerId : ℕ) :
    squadIds (setViceCaptain team playerId) = squadIds team := by
  simp only [squadIds, setViceCaptain, List.map_map]
  rfl

lemma viceCount_setCaptain_le (team : FantasyTeam) (playerId : ℕ) :
    viceCount (setCaptain team playerId) ≤ viceCount team := by
  simp only [viceCount, setCaptain, ← List.countP_eq_length_filter, List.countP_map]
  refine List.countP_mono_left ?_
  intro p _ hc
  simp only [Function.comp_apply] at hc
  by_cases hpid : (p.playerId == playerId) = true
  · simp [hpid] at hc
  · simpa [hpid] using hc

lemma capCount_setViceCaptain_le (team : FantasyTeam) (playerId : ℕ) :
    capCount (setViceCaptain team playerId) ≤ capCount team := by
  simp only [capCount, setViceCaptain, ← List.countP_eq_length_filter, List.countP_map]
  refine List.countP_mono_left ?_
  intro p _ hc
  simp only [Function.comp_apply] at hc
  by_cases hpid : (p.playerId == playerId) = true
  · simp [hpid] at hc
  · simpa [hpid] using hc

lemma reachInvariant_applyOp {team : FantasyTeam} (op : SquadOp)
    (h : reachInvariant team) : reachInvariant (applyOp team op) := by
  obtain ⟨hnd, hcap, hvice, hpairs⟩ := h
  cases op with
  | add playerId price isStarting now =>
    simp only [applyOp]
    split
    next t ht =>
      obtain ⟨-, -, hdup, -, -, -, hps⟩ := addPlayer_ok_fields ht
      have hall : ∀ x ∈ team.players, x.playerId ≠ playerId := by
        simpa [hasPlayer] using hdup
      refine ⟨?_, ?_, ?_, ?_⟩
      · simp only [squadIds, hps, List.map_append, List.map_cons, List.map_nil]
        rw [List.nodup_append]
        refine ⟨by simpa [squadIds] using hnd, by simp, fun a ha hb => ?_⟩
        obtain ⟨p, hp, hid⟩ := List.mem_map.mp ha
        simp only [List.mem_singleton, mkSelection] at hb
        exact hall p hp (hid.trans hb)
      · simpa [capCount, hps, List.filter_append, mkSelection] using hcap
      · simpa [viceCount, hps, List.filter_append, mkSelection] using hvice
      · intro sel hsel
        rw [hps] at hsel
        rcases List.mem_append.mp hsel with hold | hnew
        · exact hpairs sel hold
        · simp only [List.mem_singleton] at hnew
          subst hnew
          simp [mkSelection]
    next => exact ⟨hnd, hcap, hvice, hpairs⟩
  | remove playerId =>
    simp only [applyOp]
    split
    next t ht =>
      obtain ⟨player, -, -, -, -, hps⟩ := removePlayer_ok_fields ht
      have hsub : t.players.Sublist team.players := by
        rw [hps]
        exact List.eraseP_sublist _
      refine ⟨?_, ?_, ?_, ?_⟩
      · show (squadIds t).Nodup
        simp only [squadIds]
        exact List.Nodup.sublist (List.Sublist.map _ hsub) (by simpa [squadIds] using hnd)
      · calc capCount t = t.players.countP (fun p => p.isCaptain) :=
              (List.countP_eq_length_filter _ _).symm
          _ ≤ team.players.countP (fun p => p.isCaptain) := hsub.countP_le _
          _ = capCount team := List.countP_eq_length_filter _ _
          _ ≤ 1 := hcap
      · calc viceCount t = t.players.countP (fun p => p.isViceCaptain) :=
              (List.countP_eq_length_filter _ _).symm
          _ ≤ team.players.countP (fun p => p.isViceCaptain) := hsub.countP_le _
          _ = viceCount team := List.countP_eq_length_filter _ _
          _ ≤ 1 := hvice
      · exact fun sel hsel => hpairs sel (List.Sublist.mem hsel hsub)
    next => exact ⟨hnd, hcap, hvice, hpairs⟩
  | captain playerId =>
    refine ⟨?_, ?_, ?_, ?_⟩
    · simpa [applyOp, squadIds_setCaptain] using hnd
    · show capCount (setCaptain team playerId) ≤ 1
      rw [capCount_setCaptain]
      exact List.nodup_iff_count_le_one.mp hnd playerId
    · exact le_trans (viceCount_setCaptain_le team playerId) hvice
    · intro sel hsel hboth
      have := (setCaptain_flags team playerId sel hsel).2 hboth.1
      rw [hboth.2] at this
      cases this
  | viceCaptain playerId =>
    refine ⟨?_, ?_, ?_, ?_⟩
    · simpa [applyOp, squadIds_setViceCaptain] using hnd
    · exact le_trans (capCount_setViceCaptain_le team playerId) hcap
    · show viceCount (setViceCaptain team playerId) ≤ 1
      rw [viceCount_setViceCaptain]
      exact List.nodup_iff_count_le_one.mp hnd playerId
    · intro sel hsel hboth
      have := (setViceCaptain_flags team playerId sel hsel).2 hboth.2
      rw [hboth.1] at this
      cases this

/-- Claim C6: every state reachable from a team with no selections via
addPlayer, removePlayer, setCaptain and setViceCaptain has at most one
captain, at most one vice-captain, and no selection with both flags; and
every selection appended by a successful addPlayer starts with
isCaptain=false and isViceCaptain=false. -/
theorem captaincy_invariant_reachable (init : FantasyTeam) (ops : List SquadOp)
    (h0 : init.players = []) :
    captaincyInvariant (applyOps init ops)
    ∧ ∀ team playerId price isStarting now t,
        addPlayer team playerId price isStarting now = .ok t →
        ∃ sel, t.players = team.players ++ [sel]
          ∧ sel.isCaptain = false ∧ sel.isViceCaptain = false := by
  constructor
  · have hinv : reachInvariant init := by
      refine ⟨?_, ?_, ?_, ?_⟩ <;>
        simp [squadIds, captaincyInvariant, capCount, viceCount, h0]
    have : reachInvariant (applyOps init ops) := by
      clear h0
      induction ops generalizing init with
      | nil => exact hinv
      | cons op rest ih => exact ih _ (reachInvariant_applyOp op hinv)
    exact this.2
  · intro team playerId price isStarting now t ht
    obtain ⟨-, -, -, -, -, -, hps⟩ := addPlayer_ok_fields ht
    exact ⟨mkSelection playerId price isStarting now, hps, rfl, rfl⟩

def demoTeamAfterAdd : FantasyTeam := applyOp demoTeam (.add 7 10 true 0)

/-- Witness for C6 at a concrete operation sequence from an empty squad. -/
theorem captaincy_invariant_reachable_witness :
    demoTeam.players = []
    ∧ captaincyInvariant (applyOps demoTeam
        [.add 1 10 true 0, .add 2 20 true 1, .captain 1, .viceCaptain 2, .remove 1])
    ∧ ∃ sel, demoTeamAfterAdd.players = demoTeam.players ++ [sel]
        ∧ sel.isCaptain = false ∧ sel.isViceCaptain = false :=
  ⟨rfl,
    (captaincy_invariant_reachable demoTeam
      [.add 1 10 true 0, .add 2 20 true 1, .captain 1, .viceCaptain 2, .remove 1] rfl).1,
    (captaincy_invariant_reachable demoTeam [] rfl).2
      demoTeam 7 10 true 0 demoTeamAfterAdd rfl⟩

/-! ### Season (part_009) -/

inductive SeasonStatus where
  | upcoming
  | active
  | completed
  | cancelled
deriving DecidableEq, Repr

structure Season where
  sportmonksId : ℕ
  name : String
  leagueId : ℕ
  startDate : ℤ
  endDate : ℤ
  currentGameweek : ℕ
  totalGameweeks : ℕ
  status : SeasonStatus
  isFantasyActive : Bool
  transferDeadline : Option ℤ
deriving DecidableEq, Repr

inductive SeasonError where
  | notUpcoming
  | notActive
  | gameweekOverflow
  | deadlineOutOfRange
deriving DecidableEq, Repr

def SeasonError.message : SeasonError → String
  | .notUpcoming => "Can only activate upcoming seasons"
  | .notActive => "Can only complete active seasons"
  | .gameweekOverflow => "Cannot advance beyond total gameweeks"
  | .deadlineOutOfRange => "Transfer deadline must be within season dates"

/-- SeasonSchema.pre save hook (part_009, lines 271-282), run at save time. -/
def seasonPreSave (now : ℤ) (s : Season) : Season :=
  if s.status = .upcoming ∧ s.startDate ≤ now ∧ s.endDate ≥ now then
    { s with status := .active }
  else if s.status = .active ∧ s.endDate < now then
    { s with status := .completed, isFantasyActive := false }
  else s

/-- SeasonSchema.methods.activateSeason (part_009, lines 205-212). -/
def activateSeason (s : Season) : Except SeasonError Season :=
  if s.status = .upcoming then
    Except.ok { s with status := .active, isFantasyActive := true }
  else Except.error SeasonError.notUpcoming

/-- SeasonSchema.methods.completeSeason (part_009, lines 214-221). -/
def completeSeason (s : Season) : Except SeasonError Season :=
  if s.status = .active then
    Except.ok { s with status := .completed, isFantasyActive := false }
  else Except.error SeasonError.notActive

/-- Claim C7: on save, an Upcoming season whose dates bracket the save time
becomes Active; an Active season past its endDate becomes Completed with
isFantasyActive false; and a Cancelled season's status is never changed by
the save-time transition. -/
theorem season_presave_transitions (s : Season) (now : ℤ) :
    (s.status = .upcoming → s.startDate ≤ now → now ≤ s.endDate →
        (seasonPreSave now s).status = .active)
    ∧ (s.status = .active → s.endDate < now →
        (seasonPreSave now s).status = .completed
          ∧ (seasonPreSave now s).isFantasyActive = false)
    ∧ (s.status = .cancelled → (seasonPreSave now s).status = .cancelled) := by
  refine ⟨?_, ?_, ?_⟩
  · intro h1 h2 h3
    unfold seasonPreSave
    rw [if_pos ⟨h1, h2, h3⟩]
  · intro h1 h2
    unfold seasonPreSave
    rw [if_neg (fun hc => by rw [h1] at hc; exact absurd hc.1 (by decide)),
      if_pos ⟨h1, h2⟩]
    exact ⟨rfl, rfl⟩
  · intro h1
    unfold seasonPreSave
    rw [if_neg (fun hc => by rw [h1] at hc; exact absurd hc.1 (by decide)),
      if_neg (fun hc => by rw [h1] at hc; exact absurd hc.1 (by decide))]
    exact h1

def upcomingSeason : Season :=
  { sportmonksId := 1, name := "Season A", leagueId := 1, startDate := 0, endDate := 10,
    currentGameweek := 1, totalGameweeks := 38, status := .upcoming,
    isFantasyActive := false, transferDeadline := none }

def activeSeason : Season := { upcomingSeason with status := .active }

def cancelledSeason : Season := { upcomingSeason with status := .cancelled }

/-- Witness for C7 at three concrete seasons, one per transition case. -/
theorem season_presave_transitions_witness :
    (seasonPreSave 5 upcomingSeason).status = .active
    ∧ ((seasonPreSave 20 activeSeason).status = .completed
        ∧ (seasonPreSave 20 activeSeason).isFantasyActive = false)
    ∧ (seasonPreSave 5 cancelledSeason).status = .cancelled :=
  ⟨(season_presave_transitions upcomingSeason 5).1 rfl (by decide) (by decide),
    (season_presave_transitions activeSeason 20).2.1 rfl (by decide),
    (season_presave_transitions cancelledSeason 5).2.2 rfl⟩

/-- Claim C10: the save-time auto-promotion from Upcoming to Active leaves
isFantasyActive unchanged, whereas activateSeason sets it to true;
consequently a season can be Active with isFantasyActive=false (exhibited);
and the pre-save hook modifies only status and isFantasyActive, leaving
every other Season field unchanged. -/
theorem season_presave_frame (s : Season) (now : ℤ) :
    (s.status = .upcoming → s.startDate ≤ now → now ≤ s.endDate →
        (seasonPreSave now s).status = .active
          ∧ (seasonPreSave now s).isFantasyActive = s.isFantasyActive)
    ∧ (∀ t, activateSeason s = .ok t → t.status = .active ∧ t.isFantasyActive = true)
    ∧ ((seasonPreSave now s).sportmonksId = s.sportmonksId
        ∧ (seasonPreSave now s).name = s.name
        ∧ (seasonPreSave now s).leagueId = s.leagueId
        ∧ (seasonPreSave now s).startDate = s.startDate
        ∧ (seasonPreSave now s).endDate = s.endDate
        ∧ (seasonPreSave now s).currentGameweek = s.currentGameweek
        ∧ (seasonPreSave now s).totalGameweeks = s.totalGameweeks
        ∧ (seasonPreSave now s).transferDeadline = s.transferDeadline)
    ∧ (∃ u : Season, ∃ m : ℤ, (seasonPreSave m u).status = .active
        ∧ (seasonPreSave m u).isFantasyActive = false) := by
  refine ⟨?_, ?_, ?_, ?_⟩
  · intro h1 h2 h3
    unfold seasonPreSave
    rw [if_pos ⟨h1, h2, h3⟩]
    exact ⟨rfl, rfl⟩
  · intro t ht
    unfold activateSeason at ht
    split at ht
    · cases ht
      exact ⟨rfl, rfl⟩
    · exact absurd ht (by simp)
  · unfold seasonPreSave
    split
    · exact ⟨rfl, rfl, rfl, rfl, rfl, rfl, rfl, rfl⟩
    · split
      · exact ⟨rfl, rfl, rfl, rfl, rfl, rfl, rfl, rfl⟩
      · exact ⟨rfl, rfl, rfl, rfl, rfl, rfl, rfl, rfl⟩
  · exact ⟨upcomingSeason, 5, by decide, by decide⟩

def activatedSeason : Season :=
  { upcomingSeason with status := .active, isFantasyActive := true }

/-- Witness for C10 at a concrete upcoming season. -/
theorem season_presave_frame_witness :
    ((seasonPreSave 5 upcomingSeason).status = .active
      ∧ (seasonPreSave 5 upcomingSeason).isFantasyActive = upcomingSeason.isFantasyActive)
    ∧ (activatedSeason.status = .active ∧ activatedSeason.isFantasyActive = true) :=
  ⟨(season_presave_frame upcomingSeason 5).1 rfl (by decide) (by decide),
    (season_presave_frame upcomingSeason 5).2.1 activatedSeason rfl⟩

/-! ### Match (part_002) -/

inductive MatchStatus where
  | scheduled
  | live
  | halftime
  | finished
  | postponed
  | cancelled
  | suspended
deriving DecidableEq, Repr

inductive MatchResult where
  | home_win
  | away_win
  | draw
deriving DecidableEq, Repr

structure TeamScore where
  teamId : ℕ
  goals : ℕ
  halftimeGoals : Option ℕ
  shots : Option ℕ
  shotsOnTarget : Option ℕ
  corners : Option ℕ
  fouls : Option ℕ
  yellowCards : Option ℕ
  redCards : Option ℕ
  possession : Option ℕ
deriving DecidableEq, Repr

structure Match where
  sportmonksId : ℕ
  seasonId : ℕ
  leagueId : ℕ
  gameweek : ℕ
  kickoffTime : ℤ
  homeTeamId : ℕ
  awayTeamId : ℕ
  homeTeamScore : Option TeamScore
  awayTeamScore : Option TeamScore
  status : MatchStatus
  result : Option MatchResult
  currentMinute : Option ℕ
  lastUpdated : ℤ
deriving DecidableEq, Repr

/-- The fresh embedded score written by updateScore when a side has no score
document yet: only teamId and goals are set. -/
def freshScore (teamId : ℕ) (goals : ℕ) : TeamScore :=
  { teamId := teamId, goals := goals, halftimeGoals := none, shots := none,
    shotsOnTarget := none, corners := none, fouls := none, yellowCards := none,
    redCards := none, possession := none }

/-- MatchSchema.methods.updateScore (part_002, lines 850-879): writes both
goal tallies, then derives result by comparing them — with no check of the
match status. -/
def updateScore (m : Match) (homeGoals awayGoals : ℕ) (now : ℤ) : Match :=
  let hs := match m.homeTeamScore with
    | none => freshScore m.homeTeamId homeGoals
    | some s => { s with goals := homeGoals }
  let aws := match m.awayTeamScore with
    | none => freshScore m.awayTeamId awayGoals
    | some s => { s with goals := awayGoals }
  let result :=
    if homeGoals > awayGoals then MatchResult.home_win
    else if awayGoals > homeGoals then MatchResult.away_win
    else MatchResult.draw
  { m with
    homeTeamScore := some hs,
    awayTeamScore := some aws,
    result := some result,
    lastUpdated := now }

inductive MatchError where
  | notScheduled
  | notLive
deriving DecidableEq, Repr

def MatchError.message : MatchError → String
  | .notScheduled => "Can only start scheduled matches"
  | .notLive => "Can only finish live matches"

/-- MatchSchema.methods.finishMatch (part_002, lines 891-899): only changes
status (to finished) and currentMinute; it does not touch result. -/
def finishMatch (m : Match) (now : ℤ) : Except MatchError Match :=
  if m.status = .live ∨ m.status = .halftime then
    Except.ok { m with status := .finished, currentMinute := some 90, lastUpdated := now }
  else Except.error MatchError.notLive

def liveMatch : Match :=
  { sportmonksId := 1, seasonId := 1, leagueId := 1, gameweek := 1, kickoffTime := 0,
    homeTeamId := 10, awayTeamId := 20, homeTeamScore := none, awayTeamScore := none,
    status := .live, result := none, currentMinute := some 30, lastUpdated := 0 }

/-- Claim C9 counterexample: updateScore on a LIVE match (status not finished)
already sets result to home_win — the code derives result on every updateScore
call, not only once the match status is finished. -/
theorem updateScore_before_finished_counterexample :
    (updateScore liveMatch 1 0 5).result = some .home_win
    ∧ (updateScore liveMatch 1 0 5).status = .live
    ∧ MatchStatus.live ≠ MatchStatus.finished := by
  refine ⟨by decide, by decide, by decide⟩

/-- Claim C9 (amended): result is derived from score comparison on every
updateScore call, regardless of the match status — home_win when the home
goals exceed the away goals, away_win when the away goals exceed the home
goals, draw when equal — the match status is left unchanged by updateScore,
and finishMatch (which marks the match finished) never modifies result. -/
theorem match_result_derivation_amended (m : Match) (homeGoals awayGoals : ℕ) (now : ℤ) :
    (updateScore m homeGoals awayGoals now).result =
      some (if homeGoals > awayGoals then MatchResult.home_win
        else if awayGoals > homeGoals then MatchResult.away_win
        else MatchResult.draw)
    ∧ ((updateScore m homeGoals awayGoals now).homeTeamScore).map (fun s => s.goals)
        = some homeGoals
    ∧ ((updateScore m homeGoals awayGoals now).awayTeamScore).map (fun s => s.goals)
        = some awayGoals
    ∧ (updateScore m homeGoals awayGoals now).status = m.status
    ∧ ∀ now2 m2, finishMatch m now2 = .ok m2 →
        m2.result = m.result ∧ m2.status = .finished := by
  refine ⟨by simp [updateScore], ?_, ?_, by simp [updateScore], ?_⟩
  · cases hms : m.homeTeamScore <;> simp [updateScore, hms, freshScore]
  · cases hms : m.awayTeamScore <;> simp [updateScore, hms, freshScore]
  · intro now2 m2 hm
    unfold finishMatch at hm
    split at hm
    · cases hm
      exact ⟨rfl, rfl⟩
    · exact absurd hm (by simp)

def finishedLiveMatch : Match :=
  { liveMatch with
    status := .finished,
    currentMinute := some 90,
    lastUpdated := 6 }

/-- Witness for C9 (amended) at a concrete live match. -/
theorem match_result_derivation_amended_witness :
    (updateScore liveMatch 2 2 5).result = some MatchResult.draw
    ∧ finishMatch liveMatch 6 = .ok finishedLiveMatch
    ∧ finishedLiveMatch.result = liveMatch.result :=
  ⟨by simpa using (match_result_derivation_amended liveMatch 2 2 5).1,
    rfl,
    ((match_result_derivation_amended liveMatch 2 2 5).2.2.2.2 6
      finishedLiveMatch rfl).1⟩

/-! ### Team soft delete and query visibility (part_007) -/

structure Team where
  id : ℕ
  sportmonksId : ℕ
  name : String
  shortCode : Option String
  logoUrl : Option String
  foundedYear : Option ℕ
  country : Option String
  city : Option String
  venue : Option String
  leagueId : Option ℕ
  isActive : Bool
  deletedAt : Option ℤ
deriving DecidableEq, Repr

/-- The deletedAt constraint a caller can put in a query: the pre-find hook
adds an is-null constraint, findDeleted passes a not-null constraint. -/
inductive DeletedAtCond where
  | isNull
  | neNull
deriving DecidableEq, Repr

structure TeamQuery where
  byId : Option ℕ
  deletedAt : Option DeletedAtCond
deriving DecidableEq, Repr

def matchesDeletedAt : DeletedAtCond → Option ℤ → Bool
  | .isNull, none => true
  | .isNull, some _ => false
  | .neNull, none => false
  | .neNull, some _ => true

/-- TeamSchema.pre find hook (part_007, lines 217-224): adds the
deletedAt-null filter only when the query does not constrain deletedAt. -/
def preFindHook (q : TeamQuery) : TeamQuery :=
  if q.deletedAt.isNone then { q with deletedAt := some .isNull } else q

def matchesQuery (q : TeamQuery) (t : Team) : Bool :=
  (match q.byId with
    | none => true
    | some i => t.id == i)
  && (match q.deletedAt with
    | none => true
    | some c => matchesDeletedAt c t.deletedAt)

/-- A find operation: the pre-find hook runs on every query. -/
def findTeams (q : TeamQuery) (db : List Team) : List Team :=
  db.filter (matchesQuery (preFindHook q))

def emptyQuery : TeamQuery := { byId := none, deletedAt := none }

def findById (i : ℕ) (db : List Team) : List Team :=
  findTeams { byId := some i, deletedAt := none } db

/-- TeamSchema.statics.findDeleted (part_007, lines 209-211). -/
def findDeleted (db : List Team) : List Team :=
  findTeams { byId := none, deletedAt := some .neNull } db

/-- The soft branch of TeamSchema.methods.delete (part_007, lines 171-179). -/
def softDelete (t : Team) (now : ℤ) : Team :=
  { t with deletedAt := some now, isActive := false }

/-- TeamSchema.methods.delete applied to the document with the given id:
hard delete removes the record; soft delete stamps deletedAt and clears
isActive. -/
def deleteTeamById (hard : Bool) (i : ℕ) (now : ℤ) (db : List Team) : List Team :=
  if hard then db.filter (fun t => !(t.id == i))
  else db.map (fun t => if t.id == i then softDelete t now else t)

lemma matchesDeletedAt_isNull (d : Option ℤ) :
    matchesDeletedAt .isNull d = d.isNone := by
  cases d <;> rfl

/-- Claim C8: soft delete sets deletedAt and clears isActive; a soft-deleted
team is absent from findById and from the default find, but present in
findDeleted; a hard-deleted team is absent from both; and a find whose query
does not constrain deletedAt returns exactly the records with deletedAt
unset, while a query that does constrain deletedAt is taken as given. -/
theorem team_soft_delete_visibility (db : List Team) (t : Team) (now : ℤ)
    (ht : t ∈ db) :
    (softDelete t now).deletedAt = some now
    ∧ (softDelete t now).isActive = false
    ∧ findById t.id (deleteTeamById false t.id now db) = []
    ∧ (∀ u ∈ findTeams emptyQuery (deleteTeamById false t.id now db), u.id ≠ t.id)
    ∧ (∃ u ∈ findDeleted (deleteTeamById false t.id now db), u.id = t.id)
    ∧ findById t.id (deleteTeamById true t.id now db) = []
    ∧ (∀ u ∈ findDeleted (deleteTeamById true t.id now db), u.id ≠ t.id)
    ∧ (∀ (q : TeamQuery) (db2 : List Team), q.deletedAt = none →
        findTeams q db2 = db2.filter (fun u => matchesQuery q u && u.deletedAt.isNone))
    ∧ (∀ (q : TeamQuery) (db2 : List Team), q.deletedAt ≠ none →
        findTeams q db2 = db2.filter (matchesQuery q)) := by
  refine ⟨rfl, rfl, ?_, ?_, ?_, ?_, ?_, ?_, ?_⟩
  · unfold findById findTeams
    rw [List.filter_eq_nil_iff]
    intro u hu
    obtain ⟨v, -, hv⟩ := List.mem_map.mp hu
    by_cases hvid : v.id = t.id
    · intro hmatch
      rw [if_pos (by simpa using hvid)] at hv
      subst hv
      simp [matchesQuery, preFindHook, softDelete, matchesDeletedAt] at hmatch
    · intro hmatch
      rw [if_neg (by simpa using hvid)] at hv
      subst hv
      simp [matchesQuery, preFindHook, matchesDeletedAt_isNull] at hmatch
      exact hvid hmatch.1
  · intro u hu huid
    obtain ⟨humem, hmatch⟩ := List.mem_filter.mp hu
    obtain ⟨v, -, hv⟩ := List.mem_map.mp humem
    by_cases hvid : v.id = t.id
    · rw [if_pos (by simpa using hvid)] at hv
      subst hv
      simp [matchesQuery, preFindHook, emptyQuery, softDelete, matchesDeletedAt] at hmatch
    · rw [if_neg (by simpa using hvid)] at hv
      subst hv
      exact hvid huid
  · refine ⟨softDelete t now, ?_, rfl⟩
    refine List.mem_filter.mpr ⟨?_, ?_⟩
    · refine List.mem_map.mpr ⟨t, ht, ?_⟩
      rw [if_pos (by simp)]
    · simp [matchesQuery, preFindHook, softDelete, matchesDeletedAt]
  · unfold findById findTeams
    rw [List.filter_eq_nil_iff]
    intro u hu hmatch
    obtain ⟨-, hukeep⟩ := List.mem_filter.mp hu
    have hne : u.id ≠ t.id := by simpa using hukeep
    simp [matchesQuery, preFindHook] at hmatch
    exact hne hmatch.1
  · intro u hu huid
    obtain ⟨humem, -⟩ := List.mem_filter.mp hu
    obtain ⟨-, hukeep⟩ := List.mem_filter.mp humem
    simp only [huid] at hukeep
    simp at hukeep
  · intro q db2 hq
    unfold findTeams
    congr 1
    funext u
    simp [matchesQuery, preFindHook, hq, matchesDeletedAt_isNull]
  · intro q db2 hq
    unfold findTeams
    rw [preFindHook, if_neg (by simpa [Option.isNone_iff_eq_none] using hq)]

def teamA : Team :=
  { id := 1, sportmonksId := 100, name := "AFC", shortCode := none, logoUrl := none,
    foundedYear := none, country := none, city := none, venue := none,
    leagueId := none, isActive := true, deletedAt := none }

def teamB : Team := { teamA with id := 2, sportmonksId := 200, name := "BFC" }

/-- Witness for C8 at a concrete two-team collection. -/
theorem team_soft_delete_visibility_witness :
    teamA ∈ [teamA, teamB]
    ∧ (softDelete teamA 7).deletedAt = some 7
    ∧ (softDelete teamA 7).isActive = false
    ∧ findById teamA.id (deleteTeamById false teamA.id 7 [teamA, teamB]) = []
    ∧ (∃ u ∈ findDeleted (deleteTeamById false teamA.id 7 [teamA, teamB]), u.id = teamA.id)
    ∧ findById teamA.id (deleteTeamById true teamA.id 7 [teamA, teamB]) = [] :=
  ⟨List.mem_cons_self _ _,
    (team_soft_delete_visibility [teamA, teamB] teamA 7 (List.mem_cons_self _ _)).1,
    (team_soft_delete_visibility [teamA, teamB] teamA 7 (List.mem_cons_self _ _)).2.1,
    (team_soft_delete_visibility [teamA, teamB] teamA 7 (List.mem_cons_self _ _)).2.2.1,
    (team_soft_delete_visibility [teamA, teamB] teamA 7 (List.mem_cons_self _ _)).2.2.2.2.1,
    (team_soft_delete_visibility [teamA, teamB] teamA 7 (List.mem_cons_self _ _)).2.2.2.2.2.1⟩

end Touchline
